import Mathlib

/-!
Shallow embedding of the JETI EX-Bus telemetry firmware (chiefenne/JETI_EX_BUS),
covering the CRC engines (`src/Jeti/CRC16.py`, `src/Jeti/CRC8.py`), the EX packet
codec (`src/Jeti/Ex.py`), and the EX-Bus receive state machine and sender
(`src/Jeti/ExBus_optimized.py`).  Byte streams are modelled as `List Nat` with
each byte in `[0, 256)`; Python's arbitrary-precision integers are `Int`
(`%`/`/` on `Int` in Lean are Euclidean and agree with Python's floor semantics
for positive divisors), and MicroPython's `ustruct.pack` truncation to a byte is
an explicit `% 256`.
-/

namespace Jeti

/-! ## CRC16 engine (`src/Jeti/CRC16.py`, `crc16_ccitt`) -/

/-- One inner-loop round of `crc16_ccitt`:
`crc = (crc >> 1) ^ 0x8408 if (crc & 1) > 0 else crc >> 1`. -/
def crc16Round (crc : Nat) : Nat :=
  if crc &&& 1 > 0 then (crc >>> 1) ^^^ 0x8408 else crc >>> 1

/-- `n` rounds of the CRC16 inner loop (the source runs it 8 times per byte). -/
def crc16Rounds : Nat → Nat → Nat
  | 0, crc => crc
  | n + 1, crc => crc16Rounds n (crc16Round crc)

/-- Processing of one input byte by `crc16_ccitt`: `crc ^= packet[i]` followed by
eight inner rounds. -/
def crc16Byte (crc b : Nat) : Nat := crc16Rounds 8 (crc ^^^ b)

/-- `crc16_ccitt(packet, length)` from `src/Jeti/CRC16.py`: processes the first
`length` bytes of `packet`, starting from register value 0. -/
def crc16_ccitt (packet : List Nat) (length : Nat) : Nat :=
  (packet.take length).foldl crc16Byte 0

/-! ## CRC8 engine (`src/Jeti/CRC8.py`, `update_crc` / `crc8` / `crc8_viper`) -/

/-- One inner-loop round of `update_crc`:
`crc_u = POLY ^ (crc_u << 1) if (crc_u & 0x80) else (crc_u << 1); crc_u &= 0xFF`
with `POLY = 0x07`. -/
def crc8Round (crc_u : Nat) : Nat :=
  (if crc_u &&& 0x80 > 0 then 0x07 ^^^ (crc_u <<< 1) else crc_u <<< 1) &&& 0xFF

/-- `n` rounds of the CRC8 inner loop. -/
def crc8Rounds : Nat → Nat → Nat
  | 0, c => c
  | n + 1, c => crc8Rounds n (crc8Round c)

/-- `update_crc(crc_element, crc_seed)` from `src/Jeti/CRC8.py`. -/
def update_crc (crc_element crc_seed : Nat) : Nat :=
  crc8Rounds 8 (crc_element ^^^ crc_seed)

/-- `crc8(packet)` from `src/Jeti/CRC8.py`. -/
def crc8 (packet : List Nat) : Nat :=
  packet.foldl (fun crc_up b => update_crc b crc_up) 0

/-- The inlined inner-loop rounds of `crc8_viper` (textually identical
computations to `update_crc`, re-implemented inline in the viper function). -/
def crc8ViperRounds : Nat → Nat → Nat
  | 0, c => c
  | n + 1, c => crc8ViperRounds n ((if c &&& 0x80 > 0 then 0x07 ^^^ (c <<< 1) else c <<< 1) &&& 0xFF)

/-- `crc8_viper(packet, length)` from `src/Jeti/CRC8.py`: iterates over the first
`length` bytes; a `ptr8` read of a byte buffer always yields a value `< 256`,
modelled by reducing each element mod 256. -/
def crc8_viper (packet : List Nat) (length : Nat) : Nat :=
  (packet.take length).foldl (fun crc_up b => crc8ViperRounds 8 ((b % 256) ^^^ crc_up)) 0

/-! ## EX-Bus frame validation and sending (`src/Jeti/ExBus_optimized.py`) -/

/-- Little-endian interpretation of a byte list
(`int.from_bytes(bytes, 'little')`). -/
def leVal (bs : List Nat) : Nat :=
  bs.foldr (fun b acc => b + 256 * acc) 0

/-- `crc16_int.to_bytes(2, 'little')`: the two CRC bytes, LSB first. -/
def toLE2 (n : Nat) : List Nat := [n % 256, (n / 256) % 256]

/-- `ExBus.checkCRC(packet)` from `src/Jeti/ExBus_optimized.py`: recompute
CRC16 over `packet[:-2]` and compare with the little-endian trailer
`packet[-2:]`. -/
def checkCRC (packet : List Nat) : Bool :=
  let pre := packet.take (packet.length - 2)
  crc16_ccitt pre pre.length == leVal (packet.drop (packet.length - 2))

/-- The UART bytes written by `ExBus.sendTelemetry` once a frame `telemetry` has
been selected: `telemetry[:3] + packetID + telemetry[4:]` followed by the CRC16
of the patched frame, appended LSB first. -/
def sendTelemetryWrite (telemetry : List Nat) (packetID : Nat) : List Nat :=
  let telemetry_ID := telemetry.take 3 ++ [packetID] ++ telemetry.drop 4
  telemetry_ID ++ toLE2 (crc16_ccitt telemetry_ID telemetry_ID.length)

/-! ## EX-Bus receive state machine (`ExBus.run_forever`,
`src/Jeti/ExBus_optimized.py`).

The four protocol states `STATE_HEADER_1/2`, `STATE_LENGTH`, `STATE_END`;
states other than `STATE_HEADER_1` carry the partial `buffer` (and, after the
length byte, the recorded `packet_length`). -/

inductive RxState
  | stateHeader1
  | stateHeader2 (buffer : List Nat)
  | stateLength (buffer : List Nat)
  | stateEnd (buffer : List Nat) (packet_length : Nat)
  deriving DecidableEq, Repr

/-- A dispatched frame: the three handler calls made by `run_forever` after a
frame passes the CRC check. -/
inductive Dispatch
  | channelData (buffer : List Nat)      -- `self.getChannelData(buffer)`
  | telemetry (packetID : Nat)           -- `self.sendTelemetry(buffer[3:4])`
  | jetiBox                              -- `self.sendJetiBoxMenu()`
  deriving DecidableEq, Repr

/-- Frame classification at the end of `run_forever`'s `STATE_END` branch. -/
def classify (buffer : List Nat) : Option Dispatch :=
  if buffer.getD 0 0 = 0x3E ∧ buffer.getD 4 0 = 0x31 then
    some (.channelData buffer)
  else if buffer.getD 0 0 = 0x3D ∧ buffer.getD 1 0 = 0x01 ∧ buffer.getD 4 0 = 0x3A then
    some (.telemetry (buffer.getD 3 0))
  else if buffer.getD 0 0 = 0x3D ∧ buffer.getD 1 0 = 0x01 ∧ buffer.getD 4 0 = 0x3B then
    some .jetiBox
  else
    none

/-- One iteration of the `run_forever` loop body of `src/Jeti/ExBus_optimized.py`
on a freshly read byte `c`: the next state and the dispatched frame, if any. -/
def rxStep : RxState → Nat → RxState × Option Dispatch
  | .stateHeader1, c =>
    if c = 0x3E ∨ c = 0x3D then (.stateHeader2 [c], none) else (.stateHeader1, none)
  | .stateHeader2 buffer, c =>
    if c = 0x01 ∨ c = 0x03 then (.stateLength (buffer ++ [c]), none)
    else (.stateHeader2 buffer, none)
  | .stateLength buffer, c =>
    let buffer' := buffer ++ [c]
    let packet_length := buffer'.getD 2 0
    if packet_length > 60 then (.stateHeader1, none)
    else (.stateEnd buffer' packet_length, none)
  | .stateEnd buffer packet_length, c =>
    if buffer.length > 60 then (.stateHeader1, none)
    else
      let buffer' := buffer ++ [c]
      if buffer'.length = packet_length then
        (.stateHeader1, if checkCRC buffer' then classify buffer' else none)
      else (.stateEnd buffer' packet_length, none)

/-- Run the receive state machine over a byte stream, collecting every
dispatched frame in order. -/
def rxRun : RxState → List Nat → RxState × List Dispatch
  | s, [] => (s, [])
  | s, c :: rest =>
    let (s', d) := rxStep s c
    let (s'', ds) := rxRun s' rest
    (s'', d.toList ++ ds)

/-! ## EX packet codec (`src/Jeti/Ex.py`) -/

/-- `Ex.Header(frametype, length)`: the 7-byte EX packet header.  `productID`
and `deviceID` are the sensor collection's 2-byte serial-number halves; the
second byte combines the 2-bit frame type (shifted left by 6) with the 6-bit
telemetry length `length + 6` (`ustruct.pack('B', ...)` truncates mod 256). -/
def Header (productID deviceID : List Nat) (frametype length : Nat) : List Nat :=
  [0x0F, ((frametype <<< 6) ||| (length + 6)) % 256] ++ productID ++ deviceID ++ [0x00]

/-- `Ex.ex_frame(frametype, ...)` with the type-specific body (the bytes
produced by `Data`/`Text`/`Message`, whose returned length is their byte
count) passed explicitly: header ++ body, then the CRC8 over everything
except the leading `0x0F` appended. -/
def ex_frame (productID deviceID : List Nat) (frametype : Nat) (body : List Nat) :
    List Nat :=
  let ex_packet := Header productID deviceID frametype body.length ++ body
  ex_packet ++ [crc8_viper (ex_packet.drop 1) (ex_packet.drop 1).length]

/-- `Ex.exbus_frame(...)`: wraps an already built EX packet in the EX-Bus
envelope `3B 01 <len_ex+8> 00 3A <len_ex>`; the packet ID is a placeholder
and no CRC16 is appended (both are fixed at send time in `ExBus.sendTelemetry`). -/
def exbus_frame (ex_packet : List Nat) : List Nat :=
  [0x3B, 0x01, (ex_packet.length + 8) % 256, 0x00, 0x3A, ex_packet.length % 256]
    ++ ex_packet

/-- `Ex.Text(label)` with the label's metadata (numeric id, description and
unit as lists of character codes) passed explicitly: id byte, then
`len(description) << 3 | len(unit)`, then the raw description and unit bytes.
The source performs no length validation on either field. -/
def Text (id : Nat) (description unit : List Nat) : List Nat :=
  [id % 256, ((description.length <<< 3) ||| unit.length) % 256] ++ description ++ unit

/-- `Ex.EncodeValue(value_scaled, dataType, precision)` (the
`@micropython.viper` function, identical in `Ex.py` and `Ex_optimized.py`).
Python's `&`/`>>` on signed integers are floor-based, i.e. `% 2^k` / `/ 2^k`
on `Int`; `ustruct.pack('b', x)` stores the low byte of `x`, i.e. `% 256`.
For a `dataType` outside {0, 1, 4, 5, 8, 9} the local `value_ex` is never
assigned and the function faults: modelled as `none`. -/
def EncodeValue (value_scaled : Int) (dataType : Nat) (precision : Nat) :
    Option (List Nat) :=
  let sign : Nat := if value_scaled < 0 then 0x01 else 0x00
  if dataType = 0 then
    some ([(value_scaled % 32).toNat ||| (sign <<< 7) ||| (precision <<< 5)].map (· % 256))
  else if dataType = 1 then
    some ([(value_scaled % 256).toNat,
           ((value_scaled / 256) % 32).toNat ||| (sign <<< 7) ||| (precision <<< 5)].map (· % 256))
  else if dataType = 4 then
    some ([(value_scaled % 256).toNat,
           ((value_scaled / 256) % 256).toNat,
           ((value_scaled / 65536) % 32).toNat ||| (sign <<< 7) ||| (precision <<< 5)].map (· % 256))
  else if dataType = 5 then
    some ([(value_scaled % 256).toNat,
           ((value_scaled / 256) % 256).toNat,
           ((value_scaled / 65536) % 256).toNat ||| (sign <<< 7)].map (· % 256))
  else if dataType = 8 then
    some ([(value_scaled % 256).toNat,
           ((value_scaled / 256) % 256).toNat,
           ((value_scaled / 65536) % 256).toNat,
           ((value_scaled / 16777216) % 32).toNat ||| (sign <<< 7) ||| (precision <<< 5)].map (· % 256))
  else if dataType = 9 then
    some ([(value_scaled % 256).toNat,
           ((value_scaled / 256) % 256).toNat,
           ((value_scaled / 65536) % 256).toNat,
           ((value_scaled / 16777216) % 256).toNat].map (· % 256))
  else
    none

/-! ## Telemetry request serving (`ExBus.sendTelemetry`,
`src/Jeti/ExBus_optimized.py`).

The shared state read and written by `sendTelemetry`: the request counter
(`self.frame_count`, initialised to `-1`), the announcement bound
(`self.label_frames`), and the producer-published buffers and ready flags on
the `Ex` object. -/

structure ExShared where
  frame_count : Int
  label_frames : Int
  exbus_device_ready : Bool
  exbus_data_ready : Bool
  dev_labels_units : List (List Nat)
  n_labels : Nat
  exbus_data : List Nat
  deriving DecidableEq, Repr

/-- `ExBus.sendTelemetry(packetID)`: increments the frame counter, selects the
frame to serve (announcement frame while `frame_count <= label_frames`, else
the latest data frame, clearing its ready flag), and returns the bytes written
to the UART (`none` when the method returns 0 without writing). -/
def sendTelemetry (s : ExShared) (packetID : Nat) : ExShared × Option (List Nat) :=
  let fc := s.frame_count + 1
  if s.exbus_device_ready = true ∧ fc ≤ s.label_frames then
    ({ s with frame_count := fc },
     some (sendTelemetryWrite
       (s.dev_labels_units.getD ((fc % (s.n_labels : Int)).toNat) []) packetID))
  else if s.exbus_data_ready = true ∧ fc > s.label_frames then
    ({ s with frame_count := fc, exbus_data_ready := false },
     some (sendTelemetryWrite s.exbus_data packetID))
  else
    ({ s with frame_count := fc }, none)

/-- Serve a sequence of telemetry requests (one call of `sendTelemetry` per
received packet ID), collecting each call's UART output. -/
def runRequests : ExShared → List Nat → ExShared × List (Option (List Nat))
  | s, [] => (s, [])
  | s, pid :: rest =>
    let (s', out) := sendTelemetry s pid
    let (s'', outs) := runRequests s' rest
    (s'', out :: outs)

/-! ## General helper lemmas -/

/-- Bitwise OR with a shifted value is plain addition when the low operand fits
below the shift amount (disjoint bit ranges). -/
theorem lor_shiftLeft_eq_add {a : Nat} (b k : Nat) (ha : a < 2 ^ k) :
    a ||| (b <<< k) = a + 2 ^ k * b := by
  apply Nat.eq_of_testBit_eq
  intro j
  rw [Nat.testBit_lor, Nat.shiftLeft_eq, Nat.mul_comm b (2 ^ k),
    Nat.add_comm a (2 ^ k * b), Nat.testBit_mul_pow_two_add _ ha,
    Nat.testBit_mul_pow_two]
  rcases Nat.lt_or_ge j k with h | h
  · simp [h, Nat.not_le.mpr h]
  · have : a.testBit j = false :=
      Nat.testBit_lt_two_pow (Nat.lt_of_lt_of_le ha (Nat.pow_le_pow_right (by norm_num) h))
    simp [this, h, Nat.not_lt.mpr h]

set_option maxRecDepth 40000
set_option maxHeartbeats 1600000

/-! ## Claim C1 -/

/-- C1: the claim says that in `AWAIT_HEADER2`, a byte that is neither `0x01`
nor `0x03` resets the machine to `AWAIT_HEADER1` and drops the partial buffer.
The state machine of `ExBus_optimized.py` does not: for every such byte and
every buffer content it stays in `STATE_HEADER_2` and keeps the buffer
(`ExBus.py`'s older variant does reset, and the spec itself flags the omission
as a latent bug, so the code contradicts the documented intent). -/
theorem c1_header2_mismatch_does_not_reset (buffer : List Nat) (c : Nat)
    (h1 : c ≠ 0x01) (h3 : c ≠ 0x03) :
    rxStep (.stateHeader2 buffer) c = (.stateHeader2 buffer, none) := by
  simp [rxStep, h1, h3]

/-- Witness for C1's theorem at a concrete mismatching byte: with `0x3E`
buffered, byte `0x42` leaves the machine in `STATE_HEADER_2` with the buffer
intact instead of resetting. -/
theorem c1_header2_mismatch_does_not_reset_witness :
    (0x42 ≠ 0x01 ∧ 0x42 ≠ 0x03) ∧
      rxStep (.stateHeader2 [0x3E]) 0x42 = (.stateHeader2 [0x3E], none) :=
  ⟨by decide, c1_header2_mismatch_does_not_reset [0x3E] 0x42 (by decide) (by decide)⟩

/-! ## Claim C3 -/

/-- C3: for every prebuilt telemetry frame `exbus_frame ex_packet` (built
without CRC) and every request packet-ID byte `p`, `sendTelemetry` writes
exactly the frame with its byte at index 3 replaced by `p`, followed by the
CRC16 of the patched bytes appended LSB first; the written frame echoes `p`
at index 3. -/
theorem c3_sendTelemetry_patches_id_and_appends_crc (ex_packet : List Nat) (p : Nat) :
    sendTelemetryWrite (exbus_frame ex_packet) p =
      ((exbus_frame ex_packet).set 3 p)
        ++ toLE2 (crc16_ccitt ((exbus_frame ex_packet).set 3 p)
            ((exbus_frame ex_packet).set 3 p).length) ∧
    (sendTelemetryWrite (exbus_frame ex_packet) p).getD 3 0 = p := by
  constructor
  · simp [sendTelemetryWrite, exbus_frame]
  · simp [sendTelemetryWrite, exbus_frame]

/-! ## Claim C6 -/

/-- C6: the CRC engines reproduce the protocol's known test vectors:
the telemetry-request example gives CRC16 `0x8198`, the 38-byte channel-data
example gives CRC16 `0xE24F`, and the EX data-packet example gives CRC8 `0xF4`. -/
theorem c6_crc_known_vectors :
    crc16_ccitt [0x3D, 0x01, 0x08, 0x06, 0x3A, 0x00] 6 = 0x8198 ∧
    crc16_ccitt [0x3E, 0x03, 0x28, 0x06, 0x31, 0x20, 0x82, 0x1F, 0x82, 0x1F, 0x82,
      0x1F, 0x82, 0x1F, 0x82, 0x1F, 0x82, 0x1F, 0x82, 0x1F, 0x82, 0x1F,
      0x82, 0x1F, 0x82, 0x1F, 0x82, 0x1F, 0x82, 0x1F, 0x82, 0x1F, 0x82,
      0x1F, 0x82, 0x1F, 0x82, 0x1F] 38 = 0xE24F ∧
    crc8 [0x4C, 0xA1, 0xA8, 0x5D, 0x55, 0x00, 0x11, 0xE8, 0x23, 0x21, 0x1B, 0x00] = 0xF4 := by
  refine ⟨by decide, by decide, by decide⟩

/-! ## Claim C9 -/

/-- C9: the claim (and spec §4.3) say building an EX text packet must fail with
`FieldTooLong` when the description exceeds 31 characters.  The source performs
no validation: at a 32-character description it silently emits a packet whose
packed length byte wrapped to `(32 <<< 3) % 256 = 0`, corrupting both length
fields, instead of failing. -/
theorem c9_text_overlong_description_not_rejected :
    Text 1 (List.replicate 32 0x41) [] = [1, 0] ++ List.replicate 32 0x41 ∧
    (Text 1 (List.replicate 32 0x41) []).getD 1 0 = 0 := by
  refine ⟨by decide, by decide⟩

/-! ## Claim C5 -/

/-- C5: every telemetry frame built by `exbus_frame` over an `ex_frame` packet
is well-formed: its length byte (index 2) is the inner EX packet length plus 8,
its payload-length byte (index 5) is the EX packet length, the bytes actually
written by the sender (patched frame plus 2-byte CRC16) number exactly the
length byte, the inner packet's 6-bit length field (low 6 bits of its second
byte) is the body length plus 6, and the inner packet's final byte is the CRC8
computed over all its preceding bytes except the leading `0x0F`. -/
theorem c5_exbus_frame_well_formed (productID deviceID body : List Nat)
    (frametype p : Nat)
    (hp : productID.length = 2) (hd : deviceID.length = 2)
    (hb : body.length + 6 < 64) :
    (exbus_frame (ex_frame productID deviceID frametype body)).getD 2 0 =
        (ex_frame productID deviceID frametype body).length + 8 ∧
    (exbus_frame (ex_frame productID deviceID frametype body)).getD 5 0 =
        (ex_frame productID deviceID frametype body).length ∧
    (sendTelemetryWrite (exbus_frame (ex_frame productID deviceID frametype body)) p).length =
        (exbus_frame (ex_frame productID deviceID frametype body)).getD 2 0 ∧
    (ex_frame productID deviceID frametype body).getD 1 0 % 64 = body.length + 6 ∧
    (ex_frame productID deviceID frametype body).getD
        ((ex_frame productID deviceID frametype body).length - 1) 0 =
      crc8_viper
        (((ex_frame productID deviceID frametype body).take
            ((ex_frame productID deviceID frametype body).length - 1)).drop 1)
        ((ex_frame productID deviceID frametype body).length - 2) := by
  obtain ⟨a, b, rfl⟩ := List.length_eq_two.mp hp
  obtain ⟨c, d, rfl⟩ := List.length_eq_two.mp hd
  have hq : ex_frame [a, b] [c, d] frametype body =
      (0x0F :: ((frametype <<< 6) ||| (body.length + 6)) % 256 ::
        a :: b :: c :: d :: 0x00 :: body) ++
      [crc8_viper
        (((frametype <<< 6) ||| (body.length + 6)) % 256 ::
          a :: b :: c :: d :: 0x00 :: body) (6 + body.length)] := by
    simp [ex_frame, Header]
    congr 1
    omega
  have hlen : (ex_frame [a, b] [c, d] frametype body).length = body.length + 8 := by
    rw [hq]; simp
  have htl : (((frametype <<< 6) ||| (body.length + 6)) % 256) % 64 = body.length + 6 := by
    rw [Nat.lor_comm, lor_shiftLeft_eq_add frametype 6 hb]
    omega
  refine ⟨?_, ?_, ?_, ?_, ?_⟩
  · rw [hlen]; simp [exbus_frame, hlen]; omega
  · rw [hlen]; simp [exbus_frame, hlen]; omega
  · rw [hq]
    simp [exbus_frame, sendTelemetryWrite, toLE2]
    omega
  · rw [hq]
    simpa using htl
  · rw [hlen, hq]
    have h7 : body.length + 8 - 1 =
        (0x0F :: ((frametype <<< 6) ||| (body.length + 6)) % 256 ::
          a :: b :: c :: d :: 0x00 :: body).length := by simp
    rw [h7, List.getD_append_right _ _ _ _ (Nat.le_refl _), List.take_left]
    simp
    congr 1
    omega

/-- Witness for C5's theorem at a concrete frame: product ID `[1, 2]`,
device ID `[3, 4]`, a data frame (`frametype = 1`) with one body byte `[5]`,
request packet ID `6`. -/
theorem c5_exbus_frame_well_formed_witness :
    (([1, 2] : List Nat).length = 2 ∧ ([3, 4] : List Nat).length = 2 ∧
      ([5] : List Nat).length + 6 < 64) ∧
    ((exbus_frame (ex_frame [1, 2] [3, 4] 1 [5])).getD 2 0 =
        (ex_frame [1, 2] [3, 4] 1 [5]).length + 8 ∧
      (exbus_frame (ex_frame [1, 2] [3, 4] 1 [5])).getD 5 0 =
        (ex_frame [1, 2] [3, 4] 1 [5]).length ∧
      (sendTelemetryWrite (exbus_frame (ex_frame [1, 2] [3, 4] 1 [5])) 6).length =
        (exbus_frame (ex_frame [1, 2] [3, 4] 1 [5])).getD 2 0 ∧
      (ex_frame [1, 2] [3, 4] 1 [5]).getD 1 0 % 64 = ([5] : List Nat).length + 6 ∧
      (ex_frame [1, 2] [3, 4] 1 [5]).getD
          ((ex_frame [1, 2] [3, 4] 1 [5]).length - 1) 0 =
        crc8_viper
          (((ex_frame [1, 2] [3, 4] 1 [5]).take
              ((ex_frame [1, 2] [3, 4] 1 [5]).length - 1)).drop 1)
          ((ex_frame [1, 2] [3, 4] 1 [5]).length - 2)) :=
  ⟨by decide,
   c5_exbus_frame_well_formed [1, 2] [3, 4] [5] 1 6 (by decide) (by decide) (by decide)⟩

/-! ## Claim C10 -/

/-- The plain CRC8 inner loop and the loop inlined in the viper variant are the
same function. -/
theorem crc8Rounds_eq_viperRounds (n c : Nat) : crc8Rounds n c = crc8ViperRounds n c := by
  induction n generalizing c with
  | zero => rfl
  | succ n ih => simpa [crc8Rounds, crc8ViperRounds, crc8Round] using ih _

/-- C10: the plain-Python `crc8` and the optimized `crc8_viper` agree on every
byte sequence `p` when the viper variant is given `len(p)`. -/
theorem c10_crc8_eq_crc8_viper (p : List Nat) (h : ∀ x ∈ p, x < 256) :
    crc8 p = crc8_viper p p.length := by
  unfold crc8 crc8_viper
  rw [List.take_length]
  refine List.foldl_ext _ _ 0 (fun a b hb => ?_)
  rw [Nat.mod_eq_of_lt (h b hb)]
  exact crc8Rounds_eq_viperRounds 8 (b ^^^ a)

/-- Witness for C10's theorem at the Jeti data-telemetry test vector. -/
theorem c10_crc8_eq_crc8_viper_witness :
    (∀ x ∈ [0x4C, 0xA1, 0xA8, 0x5D, 0x55, 0x00, 0x11, 0xE8, 0x23, 0x21, 0x1B, 0x00], x < 256) ∧
    crc8 [0x4C, 0xA1, 0xA8, 0x5D, 0x55, 0x00, 0x11, 0xE8, 0x23, 0x21, 0x1B, 0x00] =
      crc8_viper [0x4C, 0xA1, 0xA8, 0x5D, 0x55, 0x00, 0x11, 0xE8, 0x23, 0x21, 0x1B, 0x00]
        ([0x4C, 0xA1, 0xA8, 0x5D, 0x55, 0x00, 0x11, 0xE8, 0x23, 0x21, 0x1B, 0x00] : List Nat).length :=
  ⟨by decide,
   c10_crc8_eq_crc8_viper [0x4C, 0xA1, 0xA8, 0x5D, 0x55, 0x00, 0x11, 0xE8, 0x23, 0x21, 0x1B, 0x00]
     (by decide)⟩

/-! ## Claim C4 -/

/-- During the announcement phase the `k`-th answer (counting the requests
served from state `s` as 0, 1, 2, …) is the announcement frame at index
`(frame_count + 1 + k) mod n_labels`; generalised over the starting counter so
that it can be proved by induction on the request list. -/
theorem runRequests_announcement_aux (s : ExShared) (pids : List Nat) (k : Nat)
    (hdev : s.exbus_device_ready = true)
    (hbound : s.frame_count + 1 + k ≤ s.label_frames)
    (hk : k < pids.length) :
    (runRequests s pids).2.getD k none =
      some (sendTelemetryWrite
        (s.dev_labels_units.getD (((s.frame_count + 1 + k) % (s.n_labels : Int)).toNat) [])
        (pids.getD k 0)) := by
  induction pids generalizing s k with
  | nil => simp at hk
  | cons pid rest ih =>
    have hfc : s.frame_count + 1 ≤ s.label_frames := by omega
    have hstep : sendTelemetry s pid =
        ({ s with frame_count := s.frame_count + 1 },
         some (sendTelemetryWrite
           (s.dev_labels_units.getD (((s.frame_count + 1) % (s.n_labels : Int)).toNat) []) pid)) := by
      simp [sendTelemetry, hdev, hfc]
    cases k with
    | zero =>
      simp [runRequests, hstep]
    | succ k =>
      have hrec := ih { s with frame_count := s.frame_count + 1 } k hdev (by simp; omega)
        (by simpa using Nat.lt_of_succ_lt_succ hk)
      simp only [runRequests, hstep, List.getD_cons_succ]
      push_cast
      rw [show s.frame_count + 1 + ((k : Int) + 1) = s.frame_count + 1 + 1 + (k : Int) by ring]
      simpa using hrec

/-- C4: the telemetry scheduler of `ExBus.sendTelemetry` serves requests as
follows.  (a) Starting from the initial state (`frame_count = -1`,
device/label frames published), while the request counter has not exceeded
`label_frames` the `k`-th request (0-based) is answered with the announcement
frame at index `k mod n_labels`.  (b) Past the announcement phase, a request
is answered with the latest published data frame and the data-ready flag is
cleared, so an immediately following request with no new publish writes
nothing.  (c) Whenever the applicable ready flag is false, nothing is written
to the UART. -/
theorem c4_sendTelemetry_schedule (sB sC s0 : ExShared) (pids : List Nat)
    (pid pid' : Nat) (k : Nat) :
    (s0.exbus_device_ready = true → s0.frame_count = -1 → k < pids.length →
      (k : Int) ≤ s0.label_frames →
      (runRequests s0 pids).2.getD k none =
        some (sendTelemetryWrite (s0.dev_labels_units.getD (k % s0.n_labels) [])
          (pids.getD k 0))) ∧
    (sB.exbus_data_ready = true → sB.frame_count + 1 > sB.label_frames →
      sendTelemetry sB pid =
        ({ sB with frame_count := sB.frame_count + 1, exbus_data_ready := false },
         some (sendTelemetryWrite sB.exbus_data pid)) ∧
      (sendTelemetry (sendTelemetry sB pid).1 pid').2 = none) ∧
    ((sC.frame_count + 1 ≤ sC.label_frames ∧ sC.exbus_device_ready = false) ∨
      (sC.frame_count + 1 > sC.label_frames ∧ sC.exbus_data_ready = false) →
      (sendTelemetry sC pid).2 = none) := by
  refine ⟨fun hdev hinit hk hbound => ?_, fun hdata hpast => ?_, fun hflag => ?_⟩
  · have := runRequests_announcement_aux s0 pids k hdev (by omega) hk
    rw [this, hinit]
    have hmod : ((-1 + 1 + (k : Int)) % (s0.n_labels : Int)).toNat = k % s0.n_labels := by
      have h1 : (-1 + 1 + (k : Int)) = ((k : Nat) : Int) := by push_cast; ring
      have h2 : ((k : Int) % (s0.n_labels : Int)) = ((k % s0.n_labels : Nat) : Int) := by
        push_cast
        ring
      rw [h1, h2]
      omega
    rw [hmod]
  · have hnotann : ¬(sB.frame_count + 1 ≤ sB.label_frames) := by omega
    have hstep : sendTelemetry sB pid =
        ({ sB with frame_count := sB.frame_count + 1, exbus_data_ready := false },
         some (sendTelemetryWrite sB.exbus_data pid)) := by
      simp [sendTelemetry, hnotann, hdata, hpast]
    refine ⟨hstep, ?_⟩
    rw [hstep]
    have h2 : ¬(sB.frame_count + 1 + 1 ≤ sB.label_frames) := by omega
    simp [sendTelemetry, h2]
  · rcases hflag with ⟨hle, hdev⟩ | ⟨hgt, hdata⟩
    · have h2 : ¬(sC.frame_count + 1 > sC.label_frames) := by omega
      simp [sendTelemetry, hdev, h2]
    · have h1 : ¬(sC.frame_count + 1 ≤ sC.label_frames) := by omega
      simp [sendTelemetry, h1, hdata]

/-- Witness for C4's theorem: with two announcement frames `[1]`, `[2]`,
`label_frames = 2` and requests `[10, 11, 12]`, the request with index 2 is
answered with frame `[1]` (index `2 mod 2 = 0`); a data request past the
announcement phase serves `[9]` once and clears the ready flag, after which an
immediate second request writes nothing; and with both flags stale nothing is
written. -/
theorem c4_sendTelemetry_schedule_witness :
    (runRequests
        { frame_count := -1, label_frames := 2, exbus_device_ready := true,
          exbus_data_ready := false, dev_labels_units := [[1], [2]], n_labels := 2,
          exbus_data := [9] } [10, 11, 12]).2.getD 2 none =
      some (sendTelemetryWrite [1] 12) ∧
    (sendTelemetry
        { frame_count := 5, label_frames := 2, exbus_device_ready := true,
          exbus_data_ready := true, dev_labels_units := [[1], [2]], n_labels := 2,
          exbus_data := [9] } 7 =
      ({ frame_count := 6, label_frames := 2, exbus_device_ready := true,
         exbus_data_ready := false, dev_labels_units := [[1], [2]], n_labels := 2,
         exbus_data := [9] }, some (sendTelemetryWrite [9] 7)) ∧
      (sendTelemetry
        (sendTelemetry
          { frame_count := 5, label_frames := 2, exbus_device_ready := true,
            exbus_data_ready := true, dev_labels_units := [[1], [2]], n_labels := 2,
            exbus_data := [9] } 7).1 8).2 = none) ∧
    (sendTelemetry
        { frame_count := 5, label_frames := 2, exbus_device_ready := true,
          exbus_data_ready := false, dev_labels_units := [[1], [2]], n_labels := 2,
          exbus_data := [9] } 7).2 = none := by
  obtain ⟨h1, h2, h3⟩ := c4_sendTelemetry_schedule
    { frame_count := 5, label_frames := 2, exbus_device_ready := true,
      exbus_data_ready := true, dev_labels_units := [[1], [2]], n_labels := 2,
      exbus_data := [9] }
    { frame_count := 5, label_frames := 2, exbus_device_ready := true,
      exbus_data_ready := false, dev_labels_units := [[1], [2]], n_labels := 2,
      exbus_data := [9] }
    { frame_count := -1, label_frames := 2, exbus_device_ready := true,
      exbus_data_ready := false, dev_labels_units := [[1], [2]], n_labels := 2,
      exbus_data := [9] } [10, 11, 12] 7 8 2
  exact ⟨h1 (by decide) (by decide) (by decide) (by decide),
         h2 (by decide) (by decide),
         h3 (Or.inr ⟨by decide, by decide⟩)⟩

/-! ## Claim C2 -/

/-- Running the receive machine over a concatenation processes the two parts in
sequence and concatenates their dispatches. -/
theorem rxRun_append (s : RxState) (a b : List Nat) :
    rxRun s (a ++ b) =
      ((rxRun (rxRun s a).1 b).1, (rxRun s a).2 ++ (rxRun (rxRun s a).1 b).2) := by
  induction a generalizing s with
  | nil => simp [rxRun]
  | cons c rest ih =>
    rcases hst : rxStep s c with ⟨s', d⟩
    simp only [List.cons_append, rxRun, hst, List.append_eq]
    rw [ih s']
    simp

/-- Bytes that are not a first header byte are discarded in `STATE_HEADER_1`
without any dispatch. -/
theorem rxRun_garbage (g : List Nat) (hg : ∀ b ∈ g, b ≠ 0x3E ∧ b ≠ 0x3D) :
    rxRun .stateHeader1 g = (.stateHeader1, []) := by
  induction g with
  | nil => rfl
  | cons c rest ih =>
    have hc := hg c (by simp)
    have e : rxStep .stateHeader1 c = (.stateHeader1, none) := by
      simp [rxStep, hc.1, hc.2]
    simp only [rxRun, e]
    simp [ih (fun b hb => hg b (by simp [hb]))]

/-- Accumulation in `STATE_END`: once the machine holds a partial buffer whose
declared `packet_length` matches the total byte count, feeding the remaining
bytes completes the frame, runs the CRC check and dispatches (or drops) it,
returning to `STATE_HEADER_1`. -/
theorem rxRun_stateEnd (rest : List Nat) : ∀ buf L, buf.length + rest.length = L →
    3 ≤ buf.length → L ≤ 60 → rest ≠ [] →
    rxRun (.stateEnd buf L) rest =
      (.stateHeader1,
       (if checkCRC (buf ++ rest) then classify (buf ++ rest) else none).toList) := by
  induction rest with
  | nil => intro buf L _ _ _ hne; exact absurd rfl hne
  | cons c rest' ih =>
    intro buf L hsum h3 hL _
    have hb60 : ¬ buf.length > 60 := by
      simp only [List.length_cons] at hsum; omega
    by_cases hr : rest' = []
    · subst hr
      have hfull : (buf ++ [c]).length = L := by
        simp only [List.length_cons, List.length_nil] at hsum
        simp
        omega
      have e : rxStep (.stateEnd buf L) c =
          (.stateHeader1, if checkCRC (buf ++ [c]) then classify (buf ++ [c]) else none) := by
        simp only [rxStep]
        rw [if_neg hb60, if_pos hfull]
      simp only [rxRun, e]
      simp
    · have hrl : 1 ≤ rest'.length := by
        cases rest' with
        | nil => exact absurd rfl hr
        | cons x xs => simp
      have hne : ¬ (buf ++ [c]).length = L := by
        simp only [List.length_cons] at hsum
        simp
        omega
      have e : rxStep (.stateEnd buf L) c = (.stateEnd (buf ++ [c]) L, none) := by
        simp only [rxStep]
        rw [if_neg hb60, if_neg hne]
      simp only [rxRun, e]
      rw [ih (buf ++ [c]) L (by simp only [List.length_cons] at hsum; simp; omega)
        (by simp; omega) hL hr]
      simp

/-- From `STATE_HEADER_1`, a frame with a valid header pair and a length byte
equal to its total length (within the 60-byte sanity bound) is fully
assembled, CRC-checked and classified, and the machine returns to
`STATE_HEADER_1`. -/
theorem rxRun_frame (h1 h2 L : Nat) (body : List Nat)
    (hh1 : h1 = 0x3E ∨ h1 = 0x3D) (hh2 : h2 = 0x01 ∨ h2 = 0x03)
    (hlen : 3 + body.length = L) (hL : L ≤ 60) (hbody : body ≠ []) :
    rxRun .stateHeader1 (h1 :: h2 :: L :: body) =
      (.stateHeader1,
       (if checkCRC (h1 :: h2 :: L :: body) then classify (h1 :: h2 :: L :: body)
        else none).toList) := by
  have e1 : rxStep .stateHeader1 h1 = (.stateHeader2 [h1], none) := by
    rcases hh1 with rfl | rfl <;> rfl
  have e2 : rxStep (.stateHeader2 [h1]) h2 = (.stateLength [h1, h2], none) := by
    rcases hh2 with rfl | rfl <;> rfl
  have hL60 : ¬ ([h1, h2] ++ [L]).getD 2 0 > 60 := by simpa using by omega
  have e3 : rxStep (.stateLength [h1, h2]) L = (.stateEnd [h1, h2, L] L, none) := by
    simp only [rxStep]
    rw [if_neg hL60]
    simp
  have e4 := rxRun_stateEnd body [h1, h2, L] L (by simpa using hlen) (by simp) hL hbody
  simp only [rxRun, e1, e2, e3, e4]
  simp

/-- Counterexample to C2 as stated: `3D 01 08 06 3A 00 98 81` is a complete
well-formed telemetry request (valid header pair, length byte 8 = total
length ≤ 60, CRC16 valid over the first 6 bytes) and alone dispatches exactly
one frame; yet prefixed by the single garbage byte `0x3E` the machine
(stuck in `STATE_HEADER_2` by the bug of C1, then desynchronised) dispatches
nothing at all, not exactly one frame. -/
theorem c2_resync_counterexample :
    checkCRC [0x3D, 0x01, 0x08, 0x06, 0x3A, 0x00, 0x98, 0x81] = true ∧
    ([0x3D, 0x01, 0x08, 0x06, 0x3A, 0x00, 0x98, 0x81] : List Nat).length = 8 ∧
    rxRun .stateHeader1 [0x3D, 0x01, 0x08, 0x06, 0x3A, 0x00, 0x98, 0x81] =
      (.stateHeader1, [.telemetry 0x06]) ∧
    (rxRun .stateHeader1
      (0x3E :: [0x3D, 0x01, 0x08, 0x06, 0x3A, 0x00, 0x98, 0x81])).2 = [] := by
  refine ⟨by decide, by decide, by decide, by decide⟩

/-- C2 (amended): for every finite sequence of garbage bytes *that contains no
first-header byte (`0x3E`/`0x3D`)* followed by one complete well-formed
recognized frame (valid header pair, length byte equal to the total frame
length and at most 60, matching CRC16, and a frame type the dispatcher
recognizes), feeding the whole sequence to the receive machine started in
`AWAIT_HEADER1` dispatches exactly the one valid frame and nothing for the
garbage prefix. -/
theorem c2_resync_amended (garbage : List Nat) (h1 h2 L : Nat) (body : List Nat)
    (d : Dispatch)
    (hg : ∀ b ∈ garbage, b ≠ 0x3E ∧ b ≠ 0x3D)
    (hh1 : h1 = 0x3E ∨ h1 = 0x3D) (hh2 : h2 = 0x01 ∨ h2 = 0x03)
    (hlen : 3 + body.length = L) (hL : L ≤ 60) (hbody : body ≠ [])
    (hcrc : checkCRC (h1 :: h2 :: L :: body) = true)
    (hcls : classify (h1 :: h2 :: L :: body) = some d) :
    rxRun .stateHeader1 (garbage ++ h1 :: h2 :: L :: body) = (.stateHeader1, [d]) := by
  rw [rxRun_append, rxRun_garbage garbage hg,
    rxRun_frame h1 h2 L body hh1 hh2 hlen hL hbody]
  simp [hcrc, hcls]

/-- Witness for the amended C2 theorem: garbage `[0x55, 0x00]` followed by the
known-good telemetry request dispatches exactly that one request. -/
theorem c2_resync_amended_witness :
    ((∀ b ∈ [0x55, 0x00], b ≠ 0x3E ∧ b ≠ 0x3D) ∧
      ((0x3D : Nat) = 0x3E ∨ (0x3D : Nat) = 0x3D) ∧
      ((0x01 : Nat) = 0x01 ∨ (0x01 : Nat) = 0x03) ∧
      3 + ([0x06, 0x3A, 0x00, 0x98, 0x81] : List Nat).length = 8 ∧ (8 : Nat) ≤ 60 ∧
      ([0x06, 0x3A, 0x00, 0x98, 0x81] : List Nat) ≠ [] ∧
      checkCRC (0x3D :: 0x01 :: 8 :: [0x06, 0x3A, 0x00, 0x98, 0x81]) = true ∧
      classify (0x3D :: 0x01 :: 8 :: [0x06, 0x3A, 0x00, 0x98, 0x81]) =
        some (.telemetry 0x06)) ∧
    rxRun .stateHeader1 ([0x55, 0x00] ++ 0x3D :: 0x01 :: 8 :: [0x06, 0x3A, 0x00, 0x98, 0x81]) =
      (.stateHeader1, [.telemetry 0x06]) :=
  ⟨⟨by decide, by decide, by decide, by decide, by decide, by decide, by decide, by decide⟩,
   c2_resync_amended [0x55, 0x00] 0x3D 0x01 8 [0x06, 0x3A, 0x00, 0x98, 0x81]
     (.telemetry 0x06) (by decide) (by decide) (by decide) (by decide) (by decide)
     (by decide) (by decide) (by decide)⟩

/-! ## Claim C8 -/

/-- Packing a 5-bit field with the sign bit (bit 7) and a 2-bit precision
(bits 5–6) is plain addition. -/
theorem sign_prec_pack (a sg p : Nat) (ha : a < 32) (hp : p < 4) :
    a ||| (sg <<< 7) ||| (p <<< 5) = a + 32 * p + 128 * sg := by
  rw [Nat.lor_assoc, Nat.lor_comm (sg <<< 7) (p <<< 5), ← Nat.lor_assoc,
    lor_shiftLeft_eq_add p 5 (by omega), lor_shiftLeft_eq_add sg 7 (by omega)]
  ring

/-- Setting bit 7 on a byte that already has bit 7 set is the identity. -/
theorem lor_bit7_of_ge (w : Nat) (h1 : 128 ≤ w) (h2 : w < 256) :
    w ||| (1 <<< 7) = w := by
  have hr : w - 128 < 128 := by omega
  have e : (w - 128) ||| (1 <<< 7) = w := by
    rw [lor_shiftLeft_eq_add 1 7 hr]; omega
  calc w ||| (1 <<< 7) = ((w - 128) ||| (1 <<< 7)) ||| (1 <<< 7) := by rw [e]
    _ = (w - 128) ||| ((1 <<< 7) ||| (1 <<< 7)) := Nat.lor_assoc _ _ _
    _ = (w - 128) ||| (1 <<< 7) := by
          rw [show ((1 <<< 7 : Nat) ||| 1 <<< 7) = 1 <<< 7 by decide]
    _ = w := e

/-- The encoding described by the claim's words (and spec §3): a *signed
magnitude* scaled value, packed little-endian with the sign bit and 2-bit
precision in the top bits of the most significant byte and the remaining bits
holding the magnitude, with widths: 0 → 1 byte (6-bit value), 1 → 2 bytes
(13-bit), 4/5 → 3 bytes (21-bit), 8/9 → 4 bytes (29-bit). -/
def specEncodeValue (value_scaled : Int) (dataType precision : Nat) :
    Option (List Nat) :=
  let sign : Nat := if value_scaled < 0 then 0x01 else 0x00
  let mag : Nat := value_scaled.natAbs
  if dataType = 0 then
    some [(mag % 64) ||| (sign <<< 7) ||| (precision <<< 5)]
  else if dataType = 1 then
    some [(mag % 8192) % 256,
          ((mag % 8192) / 256) ||| (sign <<< 7) ||| (precision <<< 5)]
  else if dataType = 4 ∨ dataType = 5 then
    some [(mag % 2097152) % 256, ((mag % 2097152) / 256) % 256,
          ((mag % 2097152) / 65536) ||| (sign <<< 7) ||| (precision <<< 5)]
  else if dataType = 8 ∨ dataType = 9 then
    some [(mag % 536870912) % 256, ((mag % 536870912) / 256) % 256,
          ((mag % 536870912) / 65536) % 256,
          ((mag % 536870912) / 16777216) ||| (sign <<< 7) ||| (precision <<< 5)]
  else
    none

/-- Counterexample to C8 as stated: at scaled value −1, datatype 1, precision
0, the code packs the *two's-complement* low bits `FF 9F`, not the signed
magnitude `01 80` that the claim describes. -/
theorem c8_encode_value_counterexample :
    EncodeValue (-1) 1 0 = some [0xFF, 0x9F] ∧
    specEncodeValue (-1) 1 0 = some [0x01, 0x80] ∧
    EncodeValue (-1) 1 0 ≠ specEncodeValue (-1) 1 0 := by
  refine ⟨by decide, by decide, by decide⟩

/-- C8 (amended): `EncodeValue` packs the scaled value's *two's-complement low
bits* little-endian (not a signed magnitude), with the sign bit (set exactly
when the value is negative, hence 0 for a scaled value of zero) and the 2-bit
precision in the top bits of the most significant byte for datatype codes
0 (5 magnitude bits), 1 (13 bits), 4 (21 bits) and 8 (29 bits); datatype 5
packs 24 low bits with only the sign bit ORed into the top byte (no precision
bits; its little-endian value equals the low 24 bits whenever the scaled value
is at least -2^23, the only conjunct needing a range bound, since further below
the ORed sign bit perturbs bit 23), datatype 9 packs the plain low 32 bits, and
every other datatype code
leaves the result variable unassigned (a fault, modelled as `none`).
Stated via the little-endian value of the emitted bytes. -/
theorem c8_encode_value_amended (v : Int) (p d : Nat) (hp : p < 4)
    (hd : d ≠ 0 ∧ d ≠ 1 ∧ d ≠ 4 ∧ d ≠ 5 ∧ d ≠ 8 ∧ d ≠ 9) :
    ((EncodeValue v 0 p).map (fun bs => (bs.length, (leVal bs : Int))) =
      some (1, v % 32 + 32 * p + 128 * (if v < 0 then (1 : Int) else 0))) ∧
    ((EncodeValue v 1 p).map (fun bs => (bs.length, (leVal bs : Int))) =
      some (2, v % 8192 + 8192 * p + 32768 * (if v < 0 then (1 : Int) else 0))) ∧
    ((EncodeValue v 4 p).map (fun bs => (bs.length, (leVal bs : Int))) =
      some (3, v % 2097152 + 2097152 * p + 8388608 * (if v < 0 then (1 : Int) else 0))) ∧
    (-8388608 ≤ v →
      (EncodeValue v 5 p).map (fun bs => (bs.length, (leVal bs : Int))) =
        some (3, v % 16777216)) ∧
    ((EncodeValue v 8 p).map (fun bs => (bs.length, (leVal bs : Int))) =
      some (4, v % 536870912 + 536870912 * p +
        2147483648 * (if v < 0 then (1 : Int) else 0))) ∧
    ((EncodeValue v 9 p).map (fun bs => (bs.length, (leVal bs : Int))) =
      some (4, v % 4294967296)) ∧
    EncodeValue v d p = none := by
  refine ⟨?_, ?_, ?_, ?_, ?_, ?_, ?_⟩
  · have e := sign_prec_pack (v % 32).toNat (if v < 0 then 1 else 0) p (by omega) hp
    have hb : (v % 32).toNat + 32 * p + 128 * (if v < 0 then (1 : Nat) else 0) < 256 := by
      split <;> omega
    simp [EncodeValue, leVal, e, Nat.mod_eq_of_lt hb]
    split <;> omega
  · have e := sign_prec_pack ((v / 256) % 32).toNat (if v < 0 then 1 else 0) p (by omega) hp
    have hb : ((v / 256) % 32).toNat + 32 * p + 128 * (if v < 0 then (1 : Nat) else 0) < 256 := by
      split <;> omega
    simp [EncodeValue, leVal, e, Nat.mod_eq_of_lt hb]
    split <;> omega
  · have e := sign_prec_pack ((v / 65536) % 32).toNat (if v < 0 then 1 else 0) p (by omega) hp
    have hb : ((v / 65536) % 32).toNat + 32 * p + 128 * (if v < 0 then (1 : Nat) else 0) < 256 := by
      split <;> omega
    simp [EncodeValue, leVal, e, Nat.mod_eq_of_lt hb]
    split <;> omega
  · intro hv5
    by_cases hv : v < 0
    · have hge : 128 ≤ ((v / 65536) % 256).toNat := by omega
      have hlt : ((v / 65536) % 256).toNat < 256 := by omega
      have e : ((v / 65536) % 256).toNat ||| ((if v < 0 then (1 : Nat) else 0) <<< 7) =
          ((v / 65536) % 256).toNat := by
        rw [if_pos hv]
        exact lor_bit7_of_ge _ hge hlt
      simp [EncodeValue, leVal, e]
      omega
    · have e : ((v / 65536) % 256).toNat ||| ((if v < 0 then (1 : Nat) else 0) <<< 7) =
          ((v / 65536) % 256).toNat := by
        rw [if_neg hv]
        simp
      simp [EncodeValue, leVal, e]
      omega
  · have e := sign_prec_pack ((v / 16777216) % 32).toNat (if v < 0 then 1 else 0) p
      (by omega) hp
    have hb : ((v / 16777216) % 32).toNat + 32 * p +
        128 * (if v < 0 then (1 : Nat) else 0) < 256 := by
      split <;> omega
    simp [EncodeValue, leVal, e, Nat.mod_eq_of_lt hb]
    split <;> omega
  · simp [EncodeValue, leVal]
    omega
  · obtain ⟨h0, h1, h4, h5, h8, h9⟩ := hd
    simp [EncodeValue, h0, h1, h4, h5, h8, h9]

/-- Witness for the amended C8 theorem at scaled value −5, precision 2,
unassigned datatype 3. -/
theorem c8_encode_value_amended_witness :
    ((2 : Nat) < 4 ∧ (-8388608 : Int) ≤ -5 ∧
      ((3 : Nat) ≠ 0 ∧ (3 : Nat) ≠ 1 ∧ (3 : Nat) ≠ 4 ∧ (3 : Nat) ≠ 5 ∧
        (3 : Nat) ≠ 8 ∧ (3 : Nat) ≠ 9)) ∧
    (((EncodeValue (-5) 0 2).map (fun bs => (bs.length, (leVal bs : Int))) =
        some (1, (-5 : Int) % 32 + 32 * 2 + 128 * (if (-5 : Int) < 0 then (1 : Int) else 0))) ∧
      ((EncodeValue (-5) 1 2).map (fun bs => (bs.length, (leVal bs : Int))) =
        some (2, (-5 : Int) % 8192 + 8192 * 2 + 32768 * (if (-5 : Int) < 0 then (1 : Int) else 0))) ∧
      ((EncodeValue (-5) 4 2).map (fun bs => (bs.length, (leVal bs : Int))) =
        some (3, (-5 : Int) % 2097152 + 2097152 * 2 +
          8388608 * (if (-5 : Int) < 0 then (1 : Int) else 0))) ∧
      ((EncodeValue (-5) 5 2).map (fun bs => (bs.length, (leVal bs : Int))) =
        some (3, (-5 : Int) % 16777216)) ∧
      ((EncodeValue (-5) 8 2).map (fun bs => (bs.length, (leVal bs : Int))) =
        some (4, (-5 : Int) % 536870912 + 536870912 * 2 +
          2147483648 * (if (-5 : Int) < 0 then (1 : Int) else 0))) ∧
      ((EncodeValue (-5) 9 2).map (fun bs => (bs.length, (leVal bs : Int))) =
        some (4, (-5 : Int) % 4294967296)) ∧
      EncodeValue (-5) 3 2 = none) :=
  ⟨⟨by decide, by decide, by decide⟩, by
    obtain ⟨a0, a1, a4, a5, a8, a9, an⟩ :=
      c8_encode_value_amended (-5) 2 3 (by decide) (by decide)
    exact ⟨a0, a1, a4, a5 (by decide), a8, a9, an⟩⟩

/-! ## Claim C7 -/

/-- Finalising a frame for transmission: append the CRC16 of the bytes,
LSB first (exactly what `ExBus.sendTelemetry` does before writing). -/
def finalize16 (b : List Nat) : List Nat := b ++ toLE2 (crc16_ccitt b b.length)

/-- Flip bit `j` of the byte at position `i`. -/
def flipBit (l : List Nat) (i j : Nat) : List Nat :=
  l.set i ((l.getD i 0) ^^^ (1 <<< j))

/-- Flipping a bit always changes the byte. -/
theorem xor_flip_ne (x j : Nat) : x ^^^ (1 <<< j) ≠ x := by
  intro h
  have h2 := congrArg (fun z => x ^^^ z) h
  simp only [← Nat.xor_assoc, Nat.xor_self, Nat.zero_xor] at h2
  rw [Nat.shiftLeft_eq, Nat.one_mul] at h2
  have := Nat.pos_pow_of_pos j (show 0 < 2 by norm_num)
  omega

/-- The CRC16 register stays a 16-bit value through one inner round. -/
theorem crc16Round_lt (c : Nat) (h : c < 65536) : crc16Round c < 65536 := by
  unfold crc16Round
  split
  · exact Nat.xor_lt_two_pow (n := 16) (by rw [Nat.shiftRight_one]; omega) (by norm_num)
  · rw [Nat.shiftRight_one]; omega

/-- The CRC16 register stays a 16-bit value through the inner loop. -/
theorem crc16Rounds_lt (n : Nat) : ∀ c, c < 65536 → crc16Rounds n c < 65536 := by
  induction n with
  | zero => intro c h; exact h
  | succ n ih => intro c h; exact ih _ (crc16Round_lt c h)

/-- The CRC16 register stays a 16-bit value after absorbing a byte. -/
theorem crc16Byte_lt (s b : Nat) (hs : s < 65536) (hb : b < 256) :
    crc16Byte s b < 65536 :=
  crc16Rounds_lt 8 _ (Nat.xor_lt_two_pow (n := 16) hs (by omega))

/-- The CRC16 register stays a 16-bit value along any byte stream. -/
theorem crc16_foldl_lt (l : List Nat) : ∀ s, s < 65536 → (∀ x ∈ l, x < 256) →
    l.foldl crc16Byte s < 65536 := by
  induction l with
  | nil => intro s hs _; exact hs
  | cons c rest ih =>
    intro s hs hl
    exact ih _ (crc16Byte_lt s c hs (hl c (by simp)))
      (fun x hx => hl x (by simp [hx]))

/-- `crc16_ccitt` of a byte stream is a 16-bit value. -/
theorem crc16_ccitt_lt (p : List Nat) (hp : ∀ x ∈ p, x < 256) :
    crc16_ccitt p p.length < 65536 := by
  unfold crc16_ccitt
  rw [List.take_length]
  exact crc16_foldl_lt p 0 (by norm_num) hp

/-- One CRC16 inner round is injective on 16-bit register values (the round is
an invertible linear update: bit 15 of the output records the dropped LSB). -/
theorem crc16Round_inj (a b : Nat) (ha : a < 65536) (hb : b < 65536)
    (h : crc16Round a = crc16Round b) : a = b := by
  have hP : (0x8408 : Nat).testBit 15 = true := by decide
  have hta : (a >>> 1).testBit 15 = false :=
    Nat.testBit_lt_two_pow (by rw [Nat.shiftRight_one]; omega)
  have htb : (b >>> 1).testBit 15 = false :=
    Nat.testBit_lt_two_pow (by rw [Nat.shiftRight_one]; omega)
  have hae : a &&& 1 = a % 2 := Nat.and_one_is_mod a
  have hbe : b &&& 1 = b % 2 := Nat.and_one_is_mod b
  unfold crc16Round at h
  split at h <;> split at h
  · -- both odd: cancel the XOR, then reassemble from the shifted halves
    have h2 : a >>> 1 = b >>> 1 := by
      have := congrArg (fun z => z ^^^ 0x8408) h
      simpa [Nat.xor_assoc, Nat.xor_self] using this
    rw [Nat.shiftRight_one] at h2
    omega
  · -- a odd, b even: bit 15 of the images disagrees
    exfalso
    have h15 := congrArg (fun z => z.testBit 15) h
    simp only [Nat.testBit_xor, hta, htb, hP] at h15
    simp at h15
  · -- a even, b odd
    exfalso
    have h15 := congrArg (fun z => z.testBit 15) h
    simp only [Nat.testBit_xor, hta, htb, hP] at h15
    simp at h15
  · -- both even
    rw [Nat.shiftRight_one, Nat.shiftRight_one] at h
    omega

/-- The CRC16 inner loop is injective on 16-bit register values. -/
theorem crc16Rounds_inj (n : Nat) : ∀ a b, a < 65536 → b < 65536 →
    crc16Rounds n a = crc16Rounds n b → a = b := by
  induction n with
  | zero => intro a b _ _ h; exact h
  | succ n ih =>
    intro a b ha hb h
    exact crc16Round_inj a b ha hb
      (ih _ _ (crc16Round_lt a ha) (crc16Round_lt b hb) h)

/-- Absorbing the same byte into different 16-bit states keeps them different. -/
theorem crc16Byte_injState (s s' b : Nat) (hs : s < 65536) (hs' : s' < 65536)
    (hb : b < 256) (h : crc16Byte s b = crc16Byte s' b) : s = s' := by
  have := crc16Rounds_inj 8 (s ^^^ b) (s' ^^^ b)
    (Nat.xor_lt_two_pow (n := 16) hs (by omega))
    (Nat.xor_lt_two_pow (n := 16) hs' (by omega)) h
  have h2 := congrArg (fun z => z ^^^ b) this
  simpa [Nat.xor_assoc, Nat.xor_self] using h2

/-- Absorbing different bytes into the same 16-bit state yields different
states. -/
theorem crc16Byte_injByte (s b b' : Nat) (hs : s < 65536) (hb : b < 256)
    (hb' : b' < 256) (hne : b ≠ b') : crc16Byte s b ≠ crc16Byte s b' := by
  intro h
  apply hne
  have := crc16Rounds_inj 8 (s ^^^ b) (s ^^^ b')
    (Nat.xor_lt_two_pow (n := 16) hs (by omega))
    (Nat.xor_lt_two_pow (n := 16) hs (by omega)) h
  have h2 := congrArg (fun z => s ^^^ z) this
  simpa [← Nat.xor_assoc, Nat.xor_self] using h2

/-- Different 16-bit register states remain different along any common byte
suffix (the CRC16 step function is injective). -/
theorem crc16_foldl_ne (suf : List Nat) : ∀ s s', s ≠ s' → s < 65536 →
    s' < 65536 → (∀ x ∈ suf, x < 256) →
    suf.foldl crc16Byte s ≠ suf.foldl crc16Byte s' := by
  induction suf with
  | nil => intro s s' hne _ _ _; exact hne
  | cons c rest ih =>
    intro s s' hne hs hs' hsuf
    have hc : c < 256 := hsuf c (by simp)
    exact ih (crc16Byte s c) (crc16Byte s' c)
      (fun h => hne (crc16Byte_injState s s' c hs hs' hc h))
      (crc16Byte_lt s c hs hc) (crc16Byte_lt s' c hs' hc)
      (fun x hx => hsuf x (by simp [hx]))

/-- Changing a single byte anywhere in a byte stream changes its CRC16. -/
theorem crc16_single_byte_ne (pre suf : List Nat) (x x' : Nat)
    (hpre : ∀ z ∈ pre, z < 256) (hsuf : ∀ z ∈ suf, z < 256)
    (hx : x < 256) (hx' : x' < 256) (hne : x ≠ x') :
    crc16_ccitt (pre ++ x :: suf) (pre ++ x :: suf).length ≠
      crc16_ccitt (pre ++ x' :: suf) (pre ++ x' :: suf).length := by
  unfold crc16_ccitt
  rw [List.take_length, List.take_length, List.foldl_append, List.foldl_append,
    List.foldl_cons, List.foldl_cons]
  have hs : pre.foldl crc16Byte 0 < 65536 := crc16_foldl_lt pre 0 (by norm_num) hpre
  exact crc16_foldl_ne suf _ _
    (crc16Byte_injByte _ x x' hs hx hx' hne)
    (crc16Byte_lt _ x hs hx) (crc16Byte_lt _ x' hs hx') hsuf

/-- The little-endian trailer decodes back to the 16-bit CRC value. -/
theorem leVal_toLE2 (c : Nat) (hc : c < 65536) : leVal (toLE2 c) = c := by
  simp [leVal, toLE2]
  omega

/-- A finalized frame passes `checkCRC`. -/
theorem checkCRC_finalize16 (b : List Nat) (hb : ∀ x ∈ b, x < 256) :
    checkCRC (finalize16 b) = true := by
  have hc := crc16_ccitt_lt b hb
  unfold finalize16 checkCRC
  have hl : (b ++ toLE2 (crc16_ccitt b b.length)).length - 2 = b.length := by
    simp [toLE2]
  rw [hl, List.take_left, List.drop_left, leVal_toLE2 _ hc]
  simp

/-- C7: for every byte sequence `b`, appending `crc16_ccitt b` little-endian
yields a frame accepted by `checkCRC`; and flipping any single bit of any byte
of the finalized frame (data or CRC trailer) yields a frame that `checkCRC`
rejects. -/
theorem c7_crc16_roundtrip_and_bitflip (b : List Nat) (hb : ∀ x ∈ b, x < 256) :
    checkCRC (finalize16 b) = true ∧
    ∀ i, i < (finalize16 b).length → ∀ j, j < 8 →
      checkCRC (flipBit (finalize16 b) i j) = false := by
  have hc : crc16_ccitt b b.length < 65536 := crc16_ccitt_lt b hb
  refine ⟨checkCRC_finalize16 b hb, ?_⟩
  intro i hi j hj
  have hm : (1 <<< j : Nat) < 256 := by
    rw [Nat.shiftLeft_eq, Nat.one_mul]
    calc (2 : Nat) ^ j < 2 ^ 8 := Nat.pow_lt_pow_right (by norm_num) hj
      _ = 256 := by norm_num
  have hflen : (finalize16 b).length = b.length + 2 := by simp [finalize16, toLE2]
  rcases Nat.lt_or_ge i b.length with hib | hib
  · -- a data byte is flipped: the recomputed CRC16 changes, the trailer does not
    have hgetd : (finalize16 b).getD i 0 = b.getD i 0 :=
      List.getD_append _ _ _ _ hib
    have hx : b.getD i 0 < 256 := by
      rw [List.getD_eq_getElem _ _ hib]
      exact hb _ (List.getElem_mem _)
    have hx' : b.getD i 0 ^^^ (1 <<< j) < 256 :=
      Nat.xor_lt_two_pow (n := 8) hx hm
    have hflip : flipBit (finalize16 b) i j =
        (b.set i (b.getD i 0 ^^^ (1 <<< j))) ++ toLE2 (crc16_ccitt b b.length) := by
      rw [flipBit, hgetd, finalize16, List.set_append, if_pos hib]
    have hdecomp : b = b.take i ++ b.getD i 0 :: b.drop (i + 1) := by
      conv_lhs => rw [← List.take_append_drop i b]
      rw [List.drop_eq_getElem_cons hib, List.getD_eq_getElem _ _ hib]
    have hcrcne : crc16_ccitt (b.set i (b.getD i 0 ^^^ (1 <<< j)))
        (b.set i (b.getD i 0 ^^^ (1 <<< j))).length ≠ crc16_ccitt b b.length := by
      rw [List.set_eq_take_cons_drop _ hib]
      conv_rhs => rw [hdecomp]
      exact crc16_single_byte_ne (b.take i) (b.drop (i + 1)) _ _
        (fun z hz => hb z (List.mem_of_mem_take hz))
        (fun z hz => hb z (List.mem_of_mem_drop hz))
        hx' hx (xor_flip_ne _ j)
    rw [hflip]
    unfold checkCRC
    have hl2 : ((b.set i (b.getD i 0 ^^^ (1 <<< j))) ++
        toLE2 (crc16_ccitt b b.length)).length - 2 =
        (b.set i (b.getD i 0 ^^^ (1 <<< j))).length := by
      simp [toLE2]
    rw [hl2, List.take_left, List.drop_left, leVal_toLE2 _ hc]
    exact beq_eq_false_iff_ne.mpr hcrcne
  · -- a CRC trailer byte is flipped: the recomputed CRC16 is unchanged, the
    -- decoded trailer value changes
    have hik : i - b.length < 2 := by
      rw [hflen] at hi; omega
    have hgetd : (finalize16 b).getD i 0 =
        (toLE2 (crc16_ccitt b b.length)).getD (i - b.length) 0 := by
      rw [finalize16]
      exact List.getD_append_right _ _ _ _ hib
    have hflip : flipBit (finalize16 b) i j =
        b ++ (toLE2 (crc16_ccitt b b.length)).set (i - b.length)
          ((toLE2 (crc16_ccitt b b.length)).getD (i - b.length) 0 ^^^ (1 <<< j)) := by
      rw [flipBit, hgetd, finalize16, List.set_append, if_neg (Nat.not_lt.mpr hib)]
    rw [hflip]
    unfold checkCRC
    have hl2 : (b ++ (toLE2 (crc16_ccitt b b.length)).set (i - b.length)
        ((toLE2 (crc16_ccitt b b.length)).getD (i - b.length) 0 ^^^ (1 <<< j))).length - 2 =
        b.length := by
      simp [toLE2]
    rw [hl2, List.take_left, List.drop_left]
    refine beq_eq_false_iff_ne.mpr ?_
    have h01 : i - b.length = 0 ∨ i - b.length = 1 := by omega
    rcases h01 with h0 | h1
    · rw [h0]
      have hxne := xor_flip_ne (crc16_ccitt b b.length % 256) j
      simp [toLE2, leVal]
      omega
    · rw [h1]
      have hxne := xor_flip_ne (crc16_ccitt b b.length / 256 % 256) j
      simp [toLE2, leVal]
      omega

/-- Witness for C7's theorem at the telemetry-request example bytes. -/
theorem c7_crc16_roundtrip_and_bitflip_witness :
    (∀ x ∈ [0x3D, 0x01, 0x08, 0x06, 0x3A, 0x00], x < 256) ∧
    (checkCRC (finalize16 [0x3D, 0x01, 0x08, 0x06, 0x3A, 0x00]) = true ∧
      ∀ i, i < (finalize16 [0x3D, 0x01, 0x08, 0x06, 0x3A, 0x00]).length → ∀ j, j < 8 →
        checkCRC (flipBit (finalize16 [0x3D, 0x01, 0x08, 0x06, 0x3A, 0x00]) i j) = false) :=
  ⟨by decide,
   c7_crc16_roundtrip_and_bitflip [0x3D, 0x01, 0x08, 0x06, 0x3A, 0x00] (by decide)⟩

end Jeti
